import Mathlib

/-!
Verification of the FactoryTesting repository's batch-allocation and
row-validation logic.

The greedy packing loop is embedded from `测试文件/test_allocation_fix.py`
(`test_allocation_logic`): starting from `remaining = total_channels`, each
iteration takes `batch_size = min(remaining, max_channels_per_batch)`,
records it as a batch, and subtracts it from `remaining`, until `remaining`
reaches zero.

The row validator is embedded from `测试文件/check_problematic_rows.py`
(`check_problematic_rows`) and the skipped-row analysis of
`测试文件/analyze_excel_columns.py` (`analyze_excel_file`).
-/

/-- The greedy packing loop of `test_allocation_logic` over channel counts:
`while remaining > 0: batch_size = min(remaining, cap); batches.append(batch_size);
remaining -= batch_size`.  The returned list holds the successive batch sizes.
For `cap = 0` the Python loop would not terminate (it would append `0` forever);
the embedding returns `[]` in that case and every claim about the loop carries
the positivity precondition `0 < cap` under which the branch is never taken. -/
def packBatches (remaining cap : Nat) : List Nat :=
  if h : remaining = 0 ∨ cap = 0 then []
  else
    (min remaining cap) :: packBatches (remaining - min remaining cap) cap
termination_by remaining
decreasing_by
  push_neg at h
  have h1 : 0 < min remaining cap := by
    rcases h with ⟨hr, hc⟩
    exact lt_min (Nat.pos_of_ne_zero hr) (Nat.pos_of_ne_zero hc)
  omega

/-- Modelled from the spec: the channel-level view of the same greedy loop
(the Batch Packer of §4.3; the Rust `ChannelAllocationService` itself is not
among the repository's Python files).  Channels are appended batch-by-batch in
original order: each iteration moves the first `min remaining cap` channels —
`List.take cap` — into the next batch and recurses on the rest. -/
def packList {α : Type} (chs : List α) (cap : Nat) : List (List α) :=
  if h : chs.length = 0 ∨ cap = 0 then []
  else (chs.take cap) :: packList (chs.drop cap) cap
termination_by chs.length
decreasing_by
  push_neg at h
  rcases h with ⟨hne, hc⟩
  have h1 : chs.length - cap < chs.length := by omega
  simpa using h1

/-- Python's `str.strip()`: remove leading and trailing whitespace.  Modeled
over the character list of the string (Lean's `String.trim` is extensionally
the same but is defined by byte-position loops that do not reduce in the
kernel); whitespace is `Char.isWhitespace` (space, tab, CR, LF), which covers
every whitespace character occurring in the repository's data. -/
def strip (s : String) : String :=
  ⟨((s.data.dropWhile Char.isWhitespace).reverse.dropWhile Char.isWhitespace).reverse⟩

/-- Python's `str.upper()` on the ASCII range (`Char.toUpper` uppercases
exactly `'a'..'z'`, which is how the scripts use it: the compared literals
`AI/AO/DI/DO`, `BOOL`, … are all ASCII). -/
def upper (s : String) : String :=
  ⟨s.data.map Char.toUpper⟩

lemma packBatches_zero (cap : Nat) : packBatches 0 cap = [] := by
  rw [packBatches]
  simp

lemma packBatches_sum (n cap : Nat) (hcap : 0 < cap) :
    (packBatches n cap).sum = n := by
  induction n using Nat.strong_induction_on with
  | _ n ih =>
    rw [packBatches]
    by_cases hn : n = 0
    · simp [hn]
    · have hc : ¬ (n = 0 ∨ cap = 0) := by omega
      simp only [hc, dite_false, List.sum_cons]
      have hmin : 0 < min n cap := lt_min (Nat.pos_of_ne_zero hn) hcap
      have hrec := ih (n - min n cap) (by omega)
      rw [hrec]
      omega

lemma packBatches_mem_le (n cap b : Nat) (hb : b ∈ packBatches n cap) :
    b ≤ cap := by
  induction n using Nat.strong_induction_on with
  | _ n ih =>
    rw [packBatches] at hb
    by_cases hc : n = 0 ∨ cap = 0
    · simp [hc] at hb
    · simp only [hc, dite_false, List.mem_cons] at hb
      rcases hb with hb | hb
      · omega
      · push_neg at hc
        have hmin : 0 < min n cap :=
          lt_min (Nat.pos_of_ne_zero hc.1) (Nat.pos_of_ne_zero hc.2)
        exact ih (n - min n cap) (by omega) hb

lemma packList_flatten {α : Type} (cap : Nat) (hcap : 0 < cap) :
    ∀ (n : Nat) (chs : List α), chs.length = n → (packList chs cap).flatten = chs := by
  intro n
  induction n using Nat.strong_induction_on with
  | _ n ih =>
    intro chs hl
    rw [packList]
    by_cases hc : chs.length = 0 ∨ cap = 0
    · rcases hc with hc | hc
      · simp [List.length_eq_zero.mp hc]
      · omega
    · rw [dif_neg hc]
      push_neg at hc
      rw [List.flatten_cons]
      have hdrop : (chs.drop cap).length < n := by
        simp only [List.length_drop]
        omega
      rw [ih (chs.drop cap).length (by omega) (chs.drop cap) rfl]
      exact List.take_append_drop cap chs

lemma packList_lengths {α : Type} (cap : Nat) :
    ∀ (n : Nat) (chs : List α), chs.length = n →
      (packList chs cap).map List.length = packBatches chs.length cap := by
  intro n
  induction n using Nat.strong_induction_on with
  | _ n ih =>
    intro chs hl
    rw [packList, packBatches]
    by_cases hc : chs.length = 0 ∨ cap = 0
    · rw [dif_pos hc, dif_pos hc]
      simp
    · rw [dif_neg hc, dif_neg hc, List.map_cons]
      push_neg at hc
      have htake : (chs.take cap).length = min chs.length cap := by
        simp [List.length_take, Nat.min_comm]
      have hdrop : (chs.drop cap).length = chs.length - cap := by
        simp [List.length_drop]
      have hrec := ih (chs.drop cap).length (by simp [hdrop]; omega)
        (chs.drop cap) rfl
      have harg : chs.length - cap = chs.length - min chs.length cap := by
        rcases Nat.le_total cap chs.length with hle | hle
        · rw [min_eq_right hle]
        · rw [min_eq_left hle]
          omega
      rw [htake, hrec, hdrop, harg]

/-- A spreadsheet row as the scripts see it: one entry per column, `none`
modelling a pandas `NaN` cell (`pd.notna` false), `some s` a present cell
whose string form (`str(...)`) is `s`. -/
abbrev Row : Type := List (Option String)

/-- Field extraction of `check_problematic_rows`, lines 24-28:
`str(row.iloc[i]).strip() if pd.notna(row.iloc[i]) else ""`. -/
def fieldAt (row : Row) (i : Nat) : String :=
  match row.getD i none with
  | none => ""
  | some s => strip s

/-- Source: `tag = str(row.iloc[6]).strip() if pd.notna(row.iloc[6]) else ""`. -/
def tag (row : Row) : String := fieldAt row 6

/-- Source: `var_name = str(row.iloc[8]).strip() if pd.notna(row.iloc[8]) else ""`. -/
def var_name (row : Row) : String := fieldAt row 8

/-- Source: `module_type = str(row.iloc[2]).strip() if pd.notna(row.iloc[2]) else ""`. -/
def module_type (row : Row) : String := fieldAt row 2

/-- Source: `data_type = str(row.iloc[10]).strip() if pd.notna(row.iloc[10]) else ""`. -/
def data_type (row : Row) : String := fieldAt row 10

/-- Source: `plc_addr = str(row.iloc[51]).strip() if pd.notna(row.iloc[51]) else ""`. -/
def plc_addr (row : Row) : String := fieldAt row 51

/-- The character class of the tag regex `^[A-Za-z0-9_\-\.]+$`:
ASCII alphanumerics, underscore, hyphen, dot. -/
def tag_char_ok (c : Char) : Bool :=
  c.isAlphanum || c == '_' || c == '-' || c == '.'

/-- Matching `re.match(r'^[A-Za-z0-9_\-\.]+$', s)` succeeds iff `s` is non-empty and
every character is in the class (the stripped input carries no trailing
newline, so the `$`-before-final-newline subtlety of Python regexes never
arises). -/
def matches_tag_pattern (s : String) : Bool :=
  !s.data.isEmpty && s.data.all tag_char_ok

/-- The character class of the variable-name regex
`^[A-Za-z0-9_\-\.一-鿿\(\)]+$`: the tag class extended with CJK
characters (U+4E00 – U+9FFF) and parentheses. -/
def var_char_ok (c : Char) : Bool :=
  tag_char_ok c || c == '(' || c == ')' ||
    (0x4e00 ≤ c.toNat && c.toNat ≤ 0x9fff)

/-- Matching `re.match(r'^[A-Za-z0-9_\-\.一-鿿\(\)]+$', s)`. -/
def matches_var_pattern (s : String) : Bool :=
  !s.data.isEmpty && s.data.all var_char_ok

/-- The distinct rejection reasons appended to `issues` by
`check_problematic_rows`, one constructor per `issues.append(...)` site.
The source formats the offending value into the message; the kind of the
message is what the constructor records:
`tag_empty` ↔ `"位号为空"`, `var_name_empty` ↔ `"变量名为空"`,
`plc_addr_empty` ↔ `"PLC地址为空"`, `invalid_module_type` ↔ `"模块类型无效: ..."`,
`invalid_data_type` ↔ `"数据类型无效: ..."`, `tag_special_chars` ↔
`"位号包含特殊字符: ..."`, `var_name_special_chars` ↔ `"变量名包含特殊字符: ..."`. -/
inductive Reason : Type
  | tag_empty
  | var_name_empty
  | plc_addr_empty
  | invalid_module_type
  | invalid_data_type
  | tag_special_chars
  | var_name_special_chars
deriving DecidableEq

/-- Source: `['AI', 'AO', 'DI', 'DO']`, the accepted module types. -/
def valid_module_types : List String := ["AI", "AO", "DI", "DO"]

/-- Source: `valid_data_types = ['BOOL', 'BOOLEAN', 'INT', 'INTEGER', 'FLOAT', 'REAL', 'STRING']`. -/
def valid_data_types : List String :=
  ["BOOL", "BOOLEAN", "INT", "INTEGER", "FLOAT", "REAL", "STRING"]

/-- The per-row `issues` list of `check_problematic_rows`, lines 30-52, in
source order: the three empty-field checks, the module-type check
(`module_type.upper() not in ['AI','AO','DI','DO']`), the data-type check
(`data_type.upper() not in valid_data_types`), and the two charset checks,
each guarded by the field being non-empty (`if tag and not re.match(...)`). -/
def row_issues (row : Row) : List Reason :=
  (if tag row = "" then [Reason.tag_empty] else []) ++
  (if var_name row = "" then [Reason.var_name_empty] else []) ++
  (if plc_addr row = "" then [Reason.plc_addr_empty] else []) ++
  (if upper (module_type row) ∈ valid_module_types then []
    else [Reason.invalid_module_type]) ++
  (if upper (data_type row) ∈ valid_data_types then []
    else [Reason.invalid_data_type]) ++
  (if tag row ≠ "" ∧ matches_tag_pattern (tag row) = false then
    [Reason.tag_special_chars] else []) ++
  (if var_name row ≠ "" ∧ matches_var_pattern (var_name row) = false then
    [Reason.var_name_special_chars] else [])

/-- The loop of `check_problematic_rows` starting at 0-based row index `n`:
`row_num = i + 2` (Excel numbering), and `if issues:
problematic_rows.append((row_num, issues, {...}))`.  Rows without issues
contribute nothing, and the loop continues over the remaining rows in every
case — no row aborts it. -/
def check_problematic_rows_from (n : Nat) : List Row → List (Nat × List Reason)
  | [] => []
  | r :: rs =>
    if (row_issues r).isEmpty then check_problematic_rows_from (n + 1) rs
    else (n + 2, row_issues r) :: check_problematic_rows_from (n + 1) rs

/-- The `problematic_rows` report built by `check_problematic_rows`: the loop
over all rows starting at index 0. -/
def check_problematic_rows (rows : List Row) : List (Nat × List Reason) :=
  check_problematic_rows_from 0 rows

/-- The accepted set: the rows that contribute no entry to the report. -/
def accepted_rows (rows : List Row) : List Row :=
  rows.filter fun r => (row_issues r).isEmpty

lemma mem_if_singleton {α : Type} (a x : α) (c : Prop) [Decidable c] :
    (a ∈ if c then [x] else []) ↔ c ∧ a = x := by
  split <;> simp_all

lemma mem_if_nil {α : Type} (a x : α) (c : Prop) [Decidable c] :
    (a ∈ if c then [] else [x]) ↔ ¬ c ∧ a = x := by
  split <;> simp_all

lemma row_issues_tag_empty (r : Row) :
    Reason.tag_empty ∈ row_issues r ↔ tag r = "" := by
  simp [row_issues, mem_if_singleton, mem_if_nil]

lemma row_issues_var_name_empty (r : Row) :
    Reason.var_name_empty ∈ row_issues r ↔ var_name r = "" := by
  simp [row_issues, mem_if_singleton, mem_if_nil]

lemma row_issues_plc_addr_empty (r : Row) :
    Reason.plc_addr_empty ∈ row_issues r ↔ plc_addr r = "" := by
  simp [row_issues, mem_if_singleton, mem_if_nil]

lemma row_issues_invalid_module_type (r : Row) :
    Reason.invalid_module_type ∈ row_issues r ↔
      upper (module_type r) ∉ valid_module_types := by
  simp [row_issues, mem_if_singleton, mem_if_nil]

lemma row_issues_invalid_data_type (r : Row) :
    Reason.invalid_data_type ∈ row_issues r ↔
      upper (data_type r) ∉ valid_data_types := by
  simp [row_issues, mem_if_singleton, mem_if_nil]

lemma row_issues_tag_special (r : Row) :
    Reason.tag_special_chars ∈ row_issues r ↔
      tag r ≠ "" ∧ matches_tag_pattern (tag r) = false := by
  simp [row_issues, mem_if_singleton, mem_if_nil]

lemma row_issues_var_special (r : Row) :
    Reason.var_name_special_chars ∈ row_issues r ↔
      var_name r ≠ "" ∧ matches_var_pattern (var_name r) = false := by
  simp [row_issues, mem_if_singleton, mem_if_nil]

lemma packBatches_closed (cap : Nat) (hcap : 0 < cap) :
    ∀ n : Nat, packBatches n cap =
      List.replicate (n / cap) cap ++ (if n % cap = 0 then [] else [n % cap]) := by
  intro n
  induction n using Nat.strong_induction_on with
  | _ n ih =>
    by_cases hn : n = 0
    · subst hn
      simp [packBatches_zero]
    · rw [packBatches, dif_neg (by omega)]
      rcases Nat.lt_or_ge n cap with hlt | hge
      · rw [min_eq_left (Nat.le_of_lt hlt), Nat.sub_self, packBatches_zero,
          Nat.div_eq_of_lt hlt, Nat.mod_eq_of_lt hlt]
        simp [hn]
      · rw [min_eq_right hge, ih (n - cap) (by omega)]
        have hmod : (n - cap) % cap = n % cap := by
          conv_rhs => rw [← Nat.sub_add_cancel hge]
          rw [Nat.add_mod_right]
        have hdiv : (n - cap) / cap + 1 = n / cap := by
          conv_rhs => rw [← Nat.sub_add_cancel hge]
          rw [Nat.add_div_right _ hcap]
        rw [hmod]
        have hrep : List.replicate (n / cap) cap =
            cap :: List.replicate ((n - cap) / cap) cap := by
          rw [← hdiv, List.replicate_succ]
        rw [hrep]
        simp

lemma packBatches_length (cap : Nat) (hcap : 0 < cap) (n : Nat) :
    (packBatches n cap).length = (n + cap - 1) / cap := by
  rw [packBatches_closed cap hcap n, List.length_append, List.length_replicate]
  have hr : n % cap < cap := Nat.mod_lt _ hcap
  have hdm := Nat.div_add_mod n cap
  by_cases h0 : n % cap = 0
  · have hz : (cap - 1) / cap = 0 := Nat.div_eq_of_lt (by omega)
    have heq : n + cap - 1 = cap * (n / cap) + (cap - 1) := by omega
    rw [if_pos h0, heq, Nat.mul_add_div hcap, hz]
    simp
  · have hz : (n % cap - 1) / cap = 0 := Nat.div_eq_of_lt (by omega)
    have heq : n + cap - 1 = cap * (n / cap + 1) + (n % cap - 1) := by
      have hc : cap * (n / cap + 1) = cap * (n / cap) + cap := by ring
      omega
    rw [if_neg h0, heq, Nat.mul_add_div hcap, hz]
    simp

lemma packBatches_20_8 : packBatches 20 8 = [8, 8, 4] := by
  simp [packBatches]

lemma packBatches_88_88 : packBatches 88 88 = [88] := by
  simp [packBatches]

/-- Modelled from the spec: the configuration gate of §7 — "ConfigurationError
(fatal): non-positive `max_channels_per_batch` …; aborts before any
allocation" — and of §4.3 — "`batch_capacity <= 0` is a configuration error,
rejected before packing starts".  The Rust service holding this check is not
among the repository's Python files; the capacity is taken as an integer so
that non-positive values can be expressed, and packing runs only on the
positive ones. -/
def allocate_batches (total : Nat) (cap : Int) : Except String (List Nat) :=
  if cap ≤ 0 then
    Except.error "ConfigurationError: non-positive max_channels_per_batch"
  else
    Except.ok (packBatches total cap.toNat)

/-- Source: `pd.isna(cell) or str(cell).strip() == ''` — the cell is `NaN` or blank
after stripping. -/
def cell_blank : Option String → Bool
  | none => true
  | some s => strip s == ""

/-- Guarded access of `analyze_excel_file`, line 93: `col_idx >= len(row) or
pd.isna(row.iloc[col_idx]) or str(row.iloc[col_idx]).strip() == ''` — an
index at or past the end of the row short-circuits to "missing" before any
cell is read. -/
def key_field_missing (row : Row) (i : Nat) : Bool :=
  decide (row.length ≤ i) || cell_blank (row.getD i none)

/-- Source: `key_fields = [(6, "位号"), (8, "变量名称"), (51, "PLC地址")]`. -/
def key_columns : List Nat := [6, 8, 51]

/-- The issues recorded by the skipped-row analysis of `analyze_excel_file`
(lines 79-97): `insufficient_columns` ↔ `"列数不足(...<53)"`,
`field_empty i` ↔ `"...为空"` for the key field at column `i`. -/
inductive AIssue : Type
  | insufficient_columns
  | field_empty (col : Nat)
deriving DecidableEq

/-- The `row_issues` list of `analyze_excel_file`, lines 79-97: first the
structural check `if len(row) < 53`, then the three key-field checks, each
using the guarded access above. -/
def analyze_row_issues (row : Row) : List AIssue :=
  (if row.length < 53 then [AIssue.insufficient_columns] else []) ++
  key_columns.filterMap fun i =>
    if key_field_missing row i then some (AIssue.field_empty i) else none

lemma analyze_mem_insufficient (row : Row) :
    AIssue.insufficient_columns ∈ analyze_row_issues row ↔ row.length < 53 := by
  simp only [analyze_row_issues, List.mem_append, mem_if_singleton,
    List.mem_filterMap, and_true]
  constructor
  · rintro (h | ⟨i, hi, hsome⟩)
    · exact h
    · split at hsome <;> simp at hsome
  · intro h
    exact Or.inl h

lemma check_from_mem :
    ∀ (rows : List Row) (n : Nat) (p : Nat × List Reason),
      p ∈ check_problematic_rows_from n rows ↔
        ∃ i, ∃ h : i < rows.length,
          p = (n + i + 2, row_issues (rows.get ⟨i, h⟩)) ∧
          row_issues (rows.get ⟨i, h⟩) ≠ [] := by
  intro rows
  induction rows with
  | nil =>
    intro n p
    simp [check_problematic_rows_from]
  | cons r rs ih =>
    intro n p
    constructor
    · intro hp
      rw [check_problematic_rows_from] at hp
      by_cases h0 : (row_issues r).isEmpty
      · rw [if_pos h0] at hp
        rcases (ih (n + 1) p).mp hp with ⟨i, hi, hpe, hne⟩
        refine ⟨i + 1, Nat.succ_lt_succ hi, ?_, hne⟩
        rw [hpe]
        congr 1
        omega
      · rw [if_neg h0] at hp
        rcases List.mem_cons.mp hp with hp | hp
        · refine ⟨0, Nat.succ_pos _, hp, ?_⟩
          simpa [List.isEmpty_iff] using h0
        · rcases (ih (n + 1) p).mp hp with ⟨i, hi, hpe, hne⟩
          refine ⟨i + 1, Nat.succ_lt_succ hi, ?_, hne⟩
          rw [hpe]
          congr 1
          omega
    · rintro ⟨i, hi, hpe, hne⟩
      rw [check_problematic_rows_from]
      by_cases h0 : (row_issues r).isEmpty
      · rw [if_pos h0]
        cases i with
        | zero =>
          exact absurd (List.isEmpty_iff.mp h0) hne
        | succ j =>
          apply (ih (n + 1) p).mpr
          refine ⟨j, Nat.lt_of_succ_lt_succ hi, ?_, hne⟩
          rw [hpe]
          congr 1
          omega
      · rw [if_neg h0]
        cases i with
        | zero =>
          exact List.mem_cons.mpr (Or.inl hpe)
        | succ j =>
          refine List.mem_cons.mpr (Or.inr ((ih (n + 1) p).mpr ?_))
          refine ⟨j, Nat.lt_of_succ_lt_succ hi, ?_, hne⟩
          rw [hpe]
          congr 1
          omega

lemma string_eq_empty_iff (s : String) : s = "" ↔ s.data = [] := by
  constructor
  · intro h
    rw [h]
  · intro h
    exact String.ext (h.trans rfl)

lemma matches_tag_pattern_false_iff (s : String) (hs : s ≠ "") :
    matches_tag_pattern s = false ↔ ∃ c ∈ s.data, tag_char_ok c = false := by
  have hd : s.data ≠ [] := fun h => hs ((string_eq_empty_iff s).mpr h)
  have hie : s.data.isEmpty = false := by
    cases h : s.data.isEmpty
    · rfl
    · exact absurd (List.isEmpty_iff.mp h) hd
  simp [matches_tag_pattern, hie, List.all_eq_false]

lemma matches_var_pattern_false_iff (s : String) (hs : s ≠ "") :
    matches_var_pattern s = false ↔ ∃ c ∈ s.data, var_char_ok c = false := by
  have hd : s.data ≠ [] := fun h => hs ((string_eq_empty_iff s).mpr h)
  have hie : s.data.isEmpty = false := by
    cases h : s.data.isEmpty
    · rfl
    · exact absurd (List.isEmpty_iff.mp h) hd
  simp [matches_var_pattern, hie, List.all_eq_false]

lemma if_singleton_eq_nil {α : Type} (x : α) (c : Prop) [Decidable c] :
    ((if c then [x] else []) = []) ↔ ¬ c := by
  split <;> simp_all

lemma if_nil_eq_nil {α : Type} (x : α) (c : Prop) [Decidable c] :
    ((if c then [] else [x]) = []) ↔ c := by
  split <;> simp_all

lemma row_issues_eq_nil (r : Row) :
    row_issues r = [] ↔
      tag r ≠ "" ∧ var_name r ≠ "" ∧ plc_addr r ≠ "" ∧
      upper (module_type r) ∈ valid_module_types ∧
      upper (data_type r) ∈ valid_data_types ∧
      matches_tag_pattern (tag r) = true ∧
      matches_var_pattern (var_name r) = true := by
  simp only [row_issues, List.append_eq_nil, if_singleton_eq_nil, if_nil_eq_nil,
    and_assoc]
  constructor
  · rintro ⟨h1, h2, h3, h4, h5, h6, h7⟩
    refine ⟨h1, h2, h3, h4, h5, ?_, ?_⟩
    · cases hb : matches_tag_pattern (tag r)
      · exact absurd ⟨h1, hb⟩ h6
      · rfl
    · cases hb : matches_var_pattern (var_name r)
      · exact absurd ⟨h2, hb⟩ h7
      · rfl
  · rintro ⟨h1, h2, h3, h4, h5, h6, h7⟩
    refine ⟨h1, h2, h3, h4, h5, ?_, ?_⟩
    · rintro ⟨-, hb⟩
      rw [h6] at hb
      cases hb
    · rintro ⟨-, hb⟩
      rw [h7] at hb
      cases hb

lemma row_issues_nodup (r : Row) : (row_issues r).Nodup := by
  unfold row_issues
  split_ifs <;> decide

/-- A concrete row in the shape of the imported sheet (52 columns), whose
module-type cell (column 2) holds `"XX"` while every other checked field is
valid — the channel of Scenario C. -/
def xx_row : Row :=
  ((((List.replicate 52 (some "0")).set 2 (some "XX")).set 6
      (some "TAG1")).set 8 (some "VAR1")).set 10 (some "Bool")

lemma xx_row_issues : row_issues xx_row = [Reason.invalid_module_type] := by
  decide

/-- C1: Coverage — for every non-negative total channel count (any input
channel list) and every positive batch capacity, the greedy packing loop
places every input channel in exactly one batch: concatenating the produced
batches in order returns exactly the input list (no loss, no duplication),
the per-batch sizes are the sizes produced by the count-level loop of
`test_allocation_logic`, and those sizes sum to the total channel count. -/
theorem packer_coverage :
    ∀ (α : Type) (chs : List α) (cap : Nat), 0 < cap →
      (packList chs cap).flatten = chs ∧
      (packList chs cap).map List.length = packBatches chs.length cap ∧
      (packBatches chs.length cap).sum = chs.length := by
  intro α chs cap hcap
  exact ⟨packList_flatten cap hcap chs.length chs rfl,
    packList_lengths cap chs.length chs rfl,
    packBatches_sum chs.length cap hcap⟩

/-- Witness for C1 at five channels and capacity 2. -/
theorem packer_coverage_witness :
    (packList [10, 20, 30, 40, 50] 2).flatten = [10, 20, 30, 40, 50] ∧
    (packBatches 5 2).sum = 5 := by
  have h := packer_coverage Nat [10, 20, 30, 40, 50] 2 (by decide)
  exact ⟨h.1, by simpa using h.2.2⟩

/-- C2: Capacity bound — every batch size produced by the packing loop is at
most the configured `max_channels_per_batch`, for every input size and every
capacity. -/
theorem packer_capacity_bound :
    ∀ (n cap b : Nat), b ∈ packBatches n cap → b ≤ cap :=
  fun n cap b hb => packBatches_mem_le n cap b hb

/-- Witness for C2 at 20 channels and capacity 8. -/
theorem packer_capacity_bound_witness :
    (8 : Nat) ∈ packBatches 20 8 ∧ 8 ≤ 8 :=
  ⟨by simp [packBatches_20_8],
    packer_capacity_bound 20 8 8 (by simp [packBatches_20_8])⟩

/-- C3: Batch count and sizes — for positive total `n` and positive capacity
`cap` the loop produces exactly `⌈n / cap⌉ = (n + cap - 1) / cap` batches,
in the closed form "`n / cap` full batches of size `cap` followed by one
batch holding the remainder `n % cap` when it is non-zero"; in particular 20
channels at capacity 8 give sizes `[8, 8, 4]` and 88 channels at capacity 88
give the single batch `[88]`. -/
theorem packer_batch_count_and_sizes :
    ∀ (n cap : Nat), 0 < n → 0 < cap →
      (packBatches n cap).length = (n + cap - 1) / cap ∧
      packBatches n cap =
        List.replicate (n / cap) cap ++
          (if n % cap = 0 then [] else [n % cap]) ∧
      packBatches 20 8 = [8, 8, 4] ∧
      packBatches 88 88 = [88] := by
  intro n cap hn hcap
  exact ⟨packBatches_length cap hcap n, packBatches_closed cap hcap n,
    packBatches_20_8, packBatches_88_88⟩

/-- Witness for C3 at 20 channels and capacity 8. -/
theorem packer_batch_count_witness :
    (packBatches 20 8).length = (20 + 8 - 1) / 8 ∧
    packBatches 20 8 =
      List.replicate (20 / 8) 8 ++ (if 20 % 8 = 0 then [] else [20 % 8]) ∧
    packBatches 20 8 = [8, 8, 4] ∧ packBatches 88 88 = [88] :=
  packer_batch_count_and_sizes 20 8 (by decide) (by decide)

/-- C4: Configuration precondition and termination — a non-positive capacity
is rejected as a fatal configuration error before any packing happens, a
positive capacity proceeds to the packing loop, each loop iteration strictly
decreases the remaining channel count when the capacity is positive (the
loop variant), and zero total channels yield zero batches. -/
theorem config_gate_and_termination :
    ∀ (total : Nat) (cap : Int),
      (cap ≤ 0 → allocate_batches total cap =
        Except.error "ConfigurationError: non-positive max_channels_per_batch") ∧
      (0 < cap → allocate_batches total cap =
        Except.ok (packBatches total cap.toNat)) ∧
      (∀ r c : Nat, 0 < c → 0 < r → r - min r c < r) ∧
      (∀ c : Nat, packBatches 0 c = []) := by
  intro total cap
  refine ⟨fun hle => ?_, fun hpos => ?_, fun r c hc hr => ?_,
    fun c => packBatches_zero c⟩
  · simp [allocate_batches, hle]
  · have h : ¬ cap ≤ 0 := by omega
    simp [allocate_batches, h]
  · have h : 0 < min r c := lt_min hr hc
    omega

/-- Witness for C4 at capacity -1 (rejected) and capacity 88 (accepted). -/
theorem config_gate_witness :
    allocate_batches 88 (-1) =
      Except.error "ConfigurationError: non-positive max_channels_per_batch" ∧
    allocate_batches 88 88 = Except.ok (packBatches 88 88) ∧
    (5 : Nat) - min 5 3 < 5 ∧ packBatches 0 9 = [] := by
  refine ⟨(config_gate_and_termination 88 (-1)).1 (by decide), ?_,
    (config_gate_and_termination 88 88).2.2.1 5 3 (by decide) (by decide),
    (config_gate_and_termination 88 88).2.2.2 9⟩
  have h := (config_gate_and_termination 88 88).2.1 (by decide)
  simpa using h

/-- C5: Insufficient-columns precondition — a row shorter than 53 columns is
recorded with the "insufficient columns" reason; that reason is present
exactly when the row is short, hence depends only on the row's length and
not on any field content (rows of equal length agree on it); and for each of
the fixed key columns 6, 8, 51, an index at or past the end of the row is
classified "field empty" by the guarded access alone, so no cell beyond the
row's end is ever read. -/
theorem insufficient_columns_precondition :
    ∀ row : Row,
      (row.length < 53 → AIssue.insufficient_columns ∈ analyze_row_issues row) ∧
      (AIssue.insufficient_columns ∈ analyze_row_issues row ↔ row.length < 53) ∧
      (∀ row₂ : Row, row₂.length = row.length →
        (AIssue.insufficient_columns ∈ analyze_row_issues row ↔
          AIssue.insufficient_columns ∈ analyze_row_issues row₂)) ∧
      (∀ i : Nat, i ∈ key_columns → row.length ≤ i →
        key_field_missing row i = true) := by
  intro row
  refine ⟨fun h => (analyze_mem_insufficient row).mpr h,
    analyze_mem_insufficient row, fun row₂ he => ?_, fun i hi hle => ?_⟩
  · rw [analyze_mem_insufficient, analyze_mem_insufficient, he]
  · simp [key_field_missing, hle]

/-- Witness for C5 at the empty row (0 columns). -/
theorem insufficient_columns_witness :
    AIssue.insufficient_columns ∈ analyze_row_issues ([] : Row) ∧
    key_field_missing ([] : Row) 51 = true :=
  ⟨(insufficient_columns_precondition []).1 (by decide),
    (insufficient_columns_precondition []).2.2.2 51 (by decide) (by decide)⟩

/-- C6: Invalid module type rejection — a row carries the "invalid module
type" reason exactly when its module type, uppercased, is not one of
AI/AO/DI/DO; the concrete Scenario-C row with module type "XX" is rejected
with exactly that reason; and the accepted rows (those with no issues) all
proceed to batching: packing them loses and duplicates none. -/
theorem invalid_module_type_rejection :
    ∀ r : Row,
      (Reason.invalid_module_type ∈ row_issues r ↔
        upper (module_type r) ∉ valid_module_types) ∧
      row_issues xx_row = [Reason.invalid_module_type] ∧
      (∀ (rows : List Row) (cap : Nat), 0 < cap →
        (packList (accepted_rows rows) cap).flatten = accepted_rows rows) := by
  intro r
  refine ⟨row_issues_invalid_module_type r, xx_row_issues,
    fun rows cap hcap => ?_⟩
  exact packList_flatten cap hcap (accepted_rows rows).length
    (accepted_rows rows) rfl

/-- Witness for C6: the Scenario-C row alone, batched at capacity 8. -/
theorem invalid_module_type_witness :
    row_issues xx_row = [Reason.invalid_module_type] ∧
    (packList (accepted_rows [xx_row]) 8).flatten = accepted_rows [xx_row] :=
  ⟨(invalid_module_type_rejection xx_row).2.1,
    (invalid_module_type_rejection xx_row).2.2 [xx_row] 8 (by decide)⟩

/-- C7: Rejection completeness and graceful degradation — every row with a
non-empty issues list appears in the problem report under its Excel row
number with exactly those reasons (regardless of what other rows do, so no
row's failure aborts the processing of the rest); a row with an empty issues
list contributes no entry under its row number; the reasons attached to a
row are pairwise distinct (one per violated rule); and the issues list is
empty exactly when the row violates none of the validation rules. -/
theorem rejection_completeness :
    ∀ rows : List Row,
      (∀ (i : Nat) (h : i < rows.length),
        row_issues (rows.get ⟨i, h⟩) ≠ [] →
          (i + 2, row_issues (rows.get ⟨i, h⟩)) ∈ check_problematic_rows rows) ∧
      (∀ (i : Nat) (h : i < rows.length),
        row_issues (rows.get ⟨i, h⟩) = [] →
          ∀ reasons : List Reason,
            (i + 2, reasons) ∉ check_problematic_rows rows) ∧
      (∀ r : Row, (row_issues r).Nodup) ∧
      (∀ r : Row, row_issues r = [] ↔
        (tag r ≠ "" ∧ var_name r ≠ "" ∧ plc_addr r ≠ "" ∧
         upper (module_type r) ∈ valid_module_types ∧
         upper (data_type r) ∈ valid_data_types ∧
         matches_tag_pattern (tag r) = true ∧
         matches_var_pattern (var_name r) = true)) := by
  intro rows
  refine ⟨?_, ?_, row_issues_nodup, row_issues_eq_nil⟩
  · intro i h hne
    apply (check_from_mem rows 0 _).mpr
    refine ⟨i, h, ?_, hne⟩
    simp
  · intro i h hempty reasons hmem
    rcases (check_from_mem rows 0 _).mp hmem with ⟨j, hj, hpe, hne⟩
    have hfst := congrArg Prod.fst hpe
    simp only [Prod.fst] at hfst
    have hij : i = j := by omega
    subst hij
    exact hne hempty

/-- Witness for C7: the single all-empty row lands in the report. -/
theorem rejection_completeness_witness :
    (2, row_issues ([] : Row)) ∈ check_problematic_rows [([] : Row)] ∧
    (row_issues ([] : Row)).Nodup := by
  have h := rejection_completeness [([] : Row)]
  refine ⟨?_, h.2.2.1 []⟩
  have h1 := h.1 0 (by decide) (by decide)
  simpa using h1

/-- C8: Identifier charset validation — a row carries the tag
"invalid characters" reason exactly when its tag is non-empty and contains a
character outside the class of ASCII alphanumerics, underscore, hyphen and
dot; and it carries the variable-name "invalid characters" reason exactly
when its variable name is non-empty and contains a character outside that
class extended with CJK characters (U+4E00–U+9FFF) and parentheses.  In
particular names made only of allowed characters never receive the reason. -/
theorem identifier_charset_validation :
    ∀ r : Row,
      (Reason.tag_special_chars ∈ row_issues r ↔
        (tag r ≠ "" ∧ ∃ c ∈ (tag r).data, tag_char_ok c = false)) ∧
      (Reason.var_name_special_chars ∈ row_issues r ↔
        (var_name r ≠ "" ∧ ∃ c ∈ (var_name r).data, var_char_ok c = false)) := by
  intro r
  constructor
  · rw [row_issues_tag_special r]
    constructor
    · rintro ⟨hne, hf⟩
      exact ⟨hne, (matches_tag_pattern_false_iff _ hne).mp hf⟩
    · rintro ⟨hne, hf⟩
      exact ⟨hne, (matches_tag_pattern_false_iff _ hne).mpr hf⟩
  · rw [row_issues_var_special r]
    constructor
    · rintro ⟨hne, hf⟩
      exact ⟨hne, (matches_var_pattern_false_iff _ hne).mp hf⟩
    · rintro ⟨hne, hf⟩
      exact ⟨hne, (matches_var_pattern_false_iff _ hne).mpr hf⟩

/-- C9: Data type validation with synonyms — a row carries the "invalid data
type" reason exactly when its data type, uppercased, is outside the accepted
list, and that list is precisely the four base types Bool/Int/Float/String
together with the synonyms Boolean, Integer and Real (all compared after
uppercasing, i.e. case-insensitively). -/
theorem data_type_synonyms :
    ∀ r : Row,
      (Reason.invalid_data_type ∈ row_issues r ↔
        upper (data_type r) ∉ valid_data_types) ∧
      (∀ s : String, upper s ∈ valid_data_types ↔
        (upper s ∈ ["BOOL", "INT", "FLOAT", "STRING"] ∨
         upper s ∈ ["BOOLEAN", "INTEGER", "REAL"])) := by
  intro r
  refine ⟨row_issues_invalid_data_type r, fun s => ?_⟩
  simp only [valid_data_types, List.mem_cons, List.not_mem_nil, or_false]
  tauto

/-- C10: Empty fields suppress charset checking — a row with an empty tag
(resp. empty variable name) receives the corresponding "field empty" reason
and never the "invalid characters" reason for that field, because the
charset check runs only on non-empty values; hence the two reasons for one
field are mutually exclusive on every row. -/
theorem empty_field_suppresses_charset :
    ∀ r : Row,
      (tag r = "" → Reason.tag_empty ∈ row_issues r ∧
        Reason.tag_special_chars ∉ row_issues r) ∧
      (var_name r = "" → Reason.var_name_empty ∈ row_issues r ∧
        Reason.var_name_special_chars ∉ row_issues r) ∧
      (¬ (Reason.tag_empty ∈ row_issues r ∧
          Reason.tag_special_chars ∈ row_issues r)) ∧
      (¬ (Reason.var_name_empty ∈ row_issues r ∧
          Reason.var_name_special_chars ∈ row_issues r)) := by
  intro r
  refine ⟨fun he => ⟨(row_issues_tag_empty r).mpr he, ?_⟩,
    fun he => ⟨(row_issues_var_name_empty r).mpr he, ?_⟩, ?_, ?_⟩
  · intro hmem
    exact ((row_issues_tag_special r).mp hmem).1 he
  · intro hmem
    exact ((row_issues_var_special r).mp hmem).1 he
  · rintro ⟨h1, h2⟩
    exact ((row_issues_tag_special r).mp h2).1 ((row_issues_tag_empty r).mp h1)
  · rintro ⟨h1, h2⟩
    exact ((row_issues_var_special r).mp h2).1
      ((row_issues_var_name_empty r).mp h1)

/-- Witness for C10: a 52-column row whose tag cell strips to the empty
string. -/
theorem empty_field_suppression_witness :
    Reason.tag_empty ∈
      row_issues ((List.replicate 52 (some "x")).set 6 (some " ")) ∧
    Reason.tag_special_chars ∉
      row_issues ((List.replicate 52 (some "x")).set 6 (some " ")) :=
  (empty_field_suppresses_charset _).1 (by decide)
